import Mathlib

/-!
Shallow embedding of the roxl bytecode pipeline (scanner, Pratt
compiler, chunk, VM) and proofs about its specification claims.

Modelling conventions:
- Rust u8 bytes and u32/usize integers are modelled as Nat; where an
  overflowing cast or wrap-around matters it is made explicit
  (`toI32`, `wrapI32`, `Precedence.add`).
- f64 is modelled as Rat; every numeric literal appearing in a claim is
  a small integer, exactly representable in f64, and no claim evaluates
  float arithmetic whose rounding could differ from Rat.
- A Rust panic (a failed unwrap/expect) and fuel exhaustion of a loop
  are modelled as the `none` / dedicated error outcomes; all claims are
  settled on runs that do not panic.
- Vec<T> is a List with its end at the list end, except the VM operand
  stack, whose List head models the Vec top (last element).
-/

namespace Roxl

/-- Heap object payloads (value.rs, enum ObjectType). -/
inductive ObjectType where
  | Str (s : String)
deriving DecidableEq, Repr

/-- Runtime values (value.rs, enum Value); Number's f64 is modelled as Rat. -/
inductive Value where
  | Bool (b : Bool)
  | Nil
  | Number (n : Rat)
  | Object (o : ObjectType)
deriving DecidableEq, Repr

/-- error.rs, enum InterpretError. -/
inductive InterpretError where
  | CompileError
  | RuntimeError
  | ValueError (msg : String)
deriving DecidableEq, Repr

/-- error.rs, enum ChunkError. -/
inductive ChunkError where
  | IPOutOfBoundsError
  | BadOPCodeError (b : Nat)
deriving DecidableEq, Repr

/-- error.rs, impl From<ChunkError> for InterpretError: always RuntimeError. -/
def ChunkError.toInterpretError : ChunkError → InterpretError :=
  fun _ => InterpretError.RuntimeError

/-- chunk.rs, enum OpCode, extended with Equal, Greater and Less.
Modelled from the spec: compiler.rs (Parser::binary) references
OpCode::Equal, OpCode::Greater and OpCode::Less, but chunk.rs declares
neither these variants nor byte encodings for them; the spec's
desugaring section names them, so they are added here with fresh byte
codes 0x0C-0x0E that the byte decoder (faithful to chunk.rs) rejects. -/
inductive OpCode where
  | Constant
  | ConstantLong
  | Nil
  | True
  | False
  | Add
  | Subtract
  | Multiply
  | Divide
  | Not
  | Negate
  | Return
  | Equal
  | Greater
  | Less
deriving DecidableEq, Repr

/-- chunk.rs, impl From<OpCode> for u8 (0x0C-0x0E modelled, see OpCode). -/
def opToByte : OpCode → Nat
  | .Constant => 0x00
  | .ConstantLong => 0x01
  | .Nil => 0x02
  | .True => 0x03
  | .False => 0x04
  | .Add => 0x05
  | .Subtract => 0x06
  | .Multiply => 0x07
  | .Divide => 0x08
  | .Not => 0x09
  | .Negate => 0x0A
  | .Return => 0x0B
  | .Equal => 0x0C
  | .Greater => 0x0D
  | .Less => 0x0E

/-- chunk.rs, impl TryFrom<u8> for OpCode: only 0x00-0x0B decode. -/
def byteToOp (b : Nat) : Except ChunkError OpCode :=
  if b = 0x00 then .ok .Constant
  else if b = 0x01 then .ok .ConstantLong
  else if b = 0x02 then .ok .Nil
  else if b = 0x03 then .ok .True
  else if b = 0x04 then .ok .False
  else if b = 0x05 then .ok .Add
  else if b = 0x06 then .ok .Subtract
  else if b = 0x07 then .ok .Multiply
  else if b = 0x08 then .ok .Divide
  else if b = 0x09 then .ok .Not
  else if b = 0x0A then .ok .Negate
  else if b = 0x0B then .ok .Return
  else .error (.BadOPCodeError b)

/-- chunk.rs, struct Chunk: bytecode bytes, constant pool, RLE line table
of (line, run count) records. -/
structure Chunk where
  code : List Nat
  constants : List Value
  lines : List (Nat × Nat)
deriving DecidableEq, Repr

/-- Chunk::default(). -/
def Chunk.empty : Chunk := ⟨[], [], []⟩

/-- Chunk::read. -/
def Chunk.read (c : Chunk) (ip : Nat) : Except ChunkError Nat :=
  match c.code[ip]? with
  | some b => .ok b
  | none => .error .IPOutOfBoundsError

/-- Chunk::read_op. -/
def Chunk.read_op (c : Chunk) (ip : Nat) : Except ChunkError OpCode :=
  match c.read ip with
  | .ok b => byteToOp b
  | .error e => .error e

/-- Chunk::read_constant. -/
def Chunk.read_constant (c : Chunk) (idx : Nat) : Except ChunkError Value :=
  match c.constants[idx]? with
  | some v => .ok v
  | none => .error .IPOutOfBoundsError

/-- Chunk::write: append the byte; then pop the top line record and
either re-push it with its count incremented (same line) or re-push it
followed by a fresh (line, 1) record. -/
def Chunk.write (c : Chunk) (b : Nat) (line : Nat) : Chunk :=
  let code := c.code ++ [b]
  match c.lines.getLast? with
  | some (topLine, count) =>
    if line = topLine then
      { c with code := code, lines := c.lines.dropLast ++ [(line, count + 1)] }
    else
      { c with code := code, lines := c.lines.dropLast ++ [(topLine, count), (line, 1)] }
  | none => { c with code := code, lines := [(line, 1)] }

/-- The value of a usize after Rust's `as i32` cast: low 32 bits,
two's complement. -/
def toI32 (n : Nat) : Int :=
  if n % 4294967296 < 2147483648 then ((n % 4294967296 : Nat) : Int)
  else ((n % 4294967296 : Nat) : Int) - 4294967296

/-- Wrap an integer into i32 range, the release-mode result of an
overflowing i32 subtraction (debug builds would panic instead; every
run examined below stays in range, where both modes agree). -/
def wrapI32 (x : Int) : Int :=
  (x + 2147483648) % 4294967296 - 2147483648

/-- The loop of Chunk::get_line: subtract each record's count (as i32)
from the running offset; the first record driving it negative wins. -/
def getLineGo : Int → List (Nat × Nat) → Option Nat
  | _, [] => none
  | off, (line, count) :: rest =>
    if wrapI32 (off - toI32 count) < 0 then some line
    else getLineGo (wrapI32 (off - toI32 count)) rest

/-- Chunk::get_line, including the `idx as i32` truncating cast. -/
def Chunk.get_line (c : Chunk) (idx : Nat) : Option Nat :=
  getLineGo (toI32 idx) c.lines

/-- Chunk::add_constant: push the value, return its (old-length) index. -/
def Chunk.add_constant (c : Chunk) (v : Value) : Nat × Chunk :=
  (c.constants.length, { c with constants := c.constants ++ [v] })

/-- A sequence of Chunk::write calls (byte, line), left to right. -/
def writeAll (c : Chunk) (ws : List (Nat × Nat)) : Chunk :=
  ws.foldl (fun c w => c.write w.1 w.2) c

/-- The line table decoded back into one line per instruction offset. -/
def expandLines (lines : List (Nat × Nat)) : List Nat :=
  (lines.map (fun r => List.replicate r.2 r.1)).flatten

/-- Line-table well-formedness: no two adjacent records share a line,
and every run count is positive. -/
def goodLines (lines : List (Nat × Nat)) : Prop :=
  List.Chain' (fun a b => a.1 ≠ b.1) lines ∧ ∀ r ∈ lines, 0 < r.2

/-- precedence.rs, enum Precedence. -/
inductive Precedence where
  | None
  | Assignment
  | Or
  | And
  | Equality
  | Comparison
  | Term
  | Factor
  | Unary
  | Call
  | Primary
deriving DecidableEq, Repr

/-- precedence.rs, impl From<Precedence> for usize. -/
def Precedence.toUsize : Precedence → Nat
  | .None => 0
  | .Assignment => 1
  | .Or => 2
  | .And => 3
  | .Equality => 4
  | .Comparison => 5
  | .Term => 6
  | .Factor => 7
  | .Unary => 8
  | .Call => 9
  | .Primary => 10

/-- precedence.rs, impl TryFrom<usize> for Precedence (Error = ()). -/
def Precedence.tryFromUsize : Nat → Except Unit Precedence
  | 0 => .ok .None
  | 1 => .ok .Assignment
  | 2 => .ok .Or
  | 3 => .ok .And
  | 4 => .ok .Equality
  | 5 => .ok .Comparison
  | 6 => .ok .Term
  | 7 => .ok .Factor
  | 8 => .ok .Unary
  | 9 => .ok .Call
  | 10 => .ok .Primary
  | _ => .error ()

/-- precedence.rs, impl Add<usize> for Precedence:
(usize::from(self) + u).try_into().unwrap_or(self). The usize addition
is modelled with release-mode wrap-around modulo 2^64 (a debug build
panics on overflow; both modes agree whenever the sum is below 2^64,
which covers every in-context use, where u = 1). -/
def Precedence.add (p : Precedence) (u : Nat) : Precedence :=
  match Precedence.tryFromUsize ((p.toUsize + u) % 18446744073709551616) with
  | .ok q => q
  | .error _ => p

/-- The derived Ord on Precedence follows declaration order, which
coincides with the usize projection. -/
def Precedence.ple (a b : Precedence) : Bool :=
  a.toUsize ≤ b.toUsize

/-- value.rs, impl Add<Value> for Value. -/
def valueAdd : Value → Value → Except InterpretError Value
  | .Number n1, .Number n2 => .ok (.Number (n1 + n2))
  | .Object (.Str s1), .Object (.Str s2) => .ok (.Object (.Str (s1 ++ s2)))
  | _, _ => .error (.ValueError "Can only add 2 number or string values")

/-- value.rs, impl Sub<Value> for Value. -/
def valueSub : Value → Value → Except InterpretError Value
  | .Number n1, .Number n2 => .ok (.Number (n1 - n2))
  | _, _ => .error (.ValueError "Can only subtract 2 number values")

/-- value.rs, impl Mul<Value> for Value. -/
def valueMul : Value → Value → Except InterpretError Value
  | .Number n1, .Number n2 => .ok (.Number (n1 * n2))
  | _, _ => .error (.ValueError "Can only multiply 2 number values")

/-- value.rs, impl Div<Value> for Value (Rat division stands in for f64
division; no claim evaluates it). -/
def valueDiv : Value → Value → Except InterpretError Value
  | .Number n1, .Number n2 => .ok (.Number (n1 / n2))
  | _, _ => .error (.ValueError "Can only divide 2 number values")

/-- value.rs, impl Neg for Value. -/
def valueNeg : Value → Except InterpretError Value
  | .Number n => .ok (.Number (-n))
  | _ => .error (.ValueError "Can only negate number values")

/-- vm.rs, struct VM. The stack's List head models the Vec top. -/
structure VM where
  chunk : Option Chunk
  ip : Nat
  stack : List Value
deriving DecidableEq, Repr

/-- VM::default(). -/
def VM.empty : VM := ⟨none, 0, []⟩

/-- VM::push. -/
def VM.push (v : VM) (x : Value) : VM :=
  { v with stack := x :: v.stack }

/-- VM::pop. -/
def VM.pop (v : VM) : Except InterpretError (Value × VM) :=
  match v.stack with
  | [] => .error .RuntimeError
  | x :: rest => .ok (x, { v with stack := rest })

/-- VM::chunk (the Option accessor). -/
def VM.getChunk (v : VM) : Except InterpretError Chunk :=
  match v.chunk with
  | some c => .ok c
  | none => .error .RuntimeError

/-- VM::read_op: decode the byte at ip, then advance ip. -/
def VM.read_op (v : VM) : Except InterpretError (OpCode × VM) :=
  match v.getChunk with
  | .error e => .error e
  | .ok c =>
    match c.read_op v.ip with
    | .error e => .error e.toInterpretError
    | .ok op => .ok (op, { v with ip := v.ip + 1 })

/-- VM::read_byte: the raw byte at ip, then advance ip. -/
def VM.read_byte (v : VM) : Except InterpretError (Nat × VM) :=
  match v.getChunk with
  | .error e => .error e
  | .ok c =>
    match c.read v.ip with
    | .error e => .error e.toInterpretError
    | .ok b => .ok (b, { v with ip := v.ip + 1 })

/-- VM::binary_op: pop b, pop a, push op(a, b); each failure leaves the
mutations already made in place. -/
def VM.binary_op (v : VM) (op : Value → Value → Except InterpretError Value) :
    Except InterpretError Unit × VM :=
  match v.pop with
  | .error e => (.error e, v)
  | .ok (b, v) =>
    match v.pop with
    | .error e => (.error e, v)
    | .ok (a, v) =>
      match op a b with
      | .error e => (.error e, v)
      | .ok r => (.ok (), v.push r)

/-- The index accumulation of the ConstantLong arm of VM::run: starting
from 0, idx = (idx << 2) + b for each of the three operand bytes in
order. -/
def constLongIdx (b0 b1 b2 : Nat) : Nat :=
  Nat.shiftLeft (Nat.shiftLeft (Nat.shiftLeft 0 2 + b0) 2 + b1) 2 + b2

/-- VM::run, fuel-bounded: none models fuel exhaustion (the Rust loop is
unbounded); otherwise the result pairs Ok/Err with the final VM state.
Errors propagate out immediately by the `?` operator, leaving the state
as already mutated; run itself never clears the stack and never calls
runtime_error. The Equal/Greater/Less arms (absent from vm.rs because
the variants do not exist in chunk.rs) are unreachable: byteToOp never
returns them. -/
def runLoop : Nat → VM → Option (Except InterpretError Unit × VM)
  | 0, _ => none
  | fuel + 1, v =>
    match v.read_op with
    | .error e => some (.error e, v)
    | .ok (op, v) =>
      match op with
      | .Return => some (.ok (), v)
      | .Constant =>
        match v.read_byte with
        | .error e => some (.error e, v)
        | .ok (b, v) =>
          match v.getChunk with
          | .error e => some (.error e, v)
          | .ok c =>
            match c.read_constant b with
            | .error e => some (.error e.toInterpretError, v)
            | .ok k => runLoop fuel (v.push k)
      | .ConstantLong =>
        match v.read_byte with
        | .error e => some (.error e, v)
        | .ok (b0, v) =>
          match v.read_byte with
          | .error e => some (.error e, v)
          | .ok (b1, v) =>
            match v.read_byte with
            | .error e => some (.error e, v)
            | .ok (b2, v) =>
              match v.getChunk with
              | .error e => some (.error e, v)
              | .ok c =>
                match c.read_constant (constLongIdx b0 b1 b2) with
                | .error e => some (.error e.toInterpretError, v)
                | .ok k => runLoop fuel (v.push k)
      | .Nil => runLoop fuel (v.push .Nil)
      | .True => runLoop fuel (v.push (.Bool true))
      | .False => runLoop fuel (v.push (.Bool false))
      | .Add =>
        match v.binary_op valueAdd with
        | (.error e, v) => some (.error e, v)
        | (.ok _, v) => runLoop fuel v
      | .Subtract =>
        match v.binary_op valueSub with
        | (.error e, v) => some (.error e, v)
        | (.ok _, v) => runLoop fuel v
      | .Multiply =>
        match v.binary_op valueMul with
        | (.error e, v) => some (.error e, v)
        | (.ok _, v) => runLoop fuel v
      | .Divide =>
        match v.binary_op valueDiv with
        | (.error e, v) => some (.error e, v)
        | (.ok _, v) => runLoop fuel v
      | .Not =>
        match v.pop with
        | .error e => some (.error e, v)
        | .ok (x, v) =>
          match x with
          | .Bool b => runLoop fuel (v.push (.Bool (!b)))
          | .Nil => runLoop fuel (v.push (.Bool true))
          | _ => some (.error (.ValueError "Expected falsable type"), v)
      | .Negate =>
        match v.pop with
        | .error e => some (.error e, v)
        | .ok (x, v) =>
          match valueNeg x with
          | .error e => some (.error e, v)
          | .ok y => runLoop fuel (v.push y)
      | _ => some (.error .RuntimeError, v)

/-- VM::instruct: install the chunk, reset ip to 0 (the stack is left
untouched), then run. -/
def VM.instruct (fuel : Nat) (v : VM) (c : Chunk) :
    Option (Except InterpretError Unit × VM) :=
  runLoop fuel { v with chunk := some c, ip := 0 }

/-- token.rs, enum TokenType. -/
inductive TokenType where
  | LeftParen | RightParen | LeftBrace | RightBrace
  | Comma | Dot | Minus | Plus | Semicolon | Slash | Star
  | Bang | BangEqual | Equal | EqualEqual | Greater
  | Less | GreaterEqual | LessEqual
  | Identifier | String | Number
  | And | Class | Else | False | For | Fun | If | Nil | Or | Print
  | Return | Super | This | True | Var | While
  | EOF
deriving DecidableEq, Repr

/-- token.rs, struct Token; the literal span is a char list (all claim
inputs are ASCII, where Rust's byte indexing and char indexing agree). -/
structure Token where
  token_type : TokenType
  literal : List Char
  line : Nat
deriving DecidableEq, Repr

/-- scanner.rs, enum ScanError. -/
inductive ScanError where
  | UnexpectedCharacter
  | ExpectedMoreInput
  | UnterminatedString
  | BadPeekOffset
deriving DecidableEq, Repr

/-- A scanner-call outcome that is not a token: a ScanError, a Rust
panic (failed unwrap), or exhaustion of the model's loop fuel. -/
inductive SFail where
  | err (e : ScanError)
  | panicked
  | fuelOut
deriving DecidableEq, Repr

/-- Named characters (written via codepoints to keep the file free of
punctuation character literals). -/
def spaceCh : Char := Char.ofNat 32
def tabCh : Char := Char.ofNat 9
def crCh : Char := Char.ofNat 13
def nlCh : Char := Char.ofNat 10
def lparenCh : Char := Char.ofNat 40
def rparenCh : Char := Char.ofNat 41
def lbraceCh : Char := Char.ofNat 123
def rbraceCh : Char := Char.ofNat 125
def semiCh : Char := Char.ofNat 59
def commaCh : Char := Char.ofNat 44
def dotCh : Char := Char.ofNat 46
def minusCh : Char := Char.ofNat 45
def plusCh : Char := Char.ofNat 43
def slashCh : Char := Char.ofNat 47
def starCh : Char := Char.ofNat 42
def bangCh : Char := Char.ofNat 33
def eqCh : Char := Char.ofNat 61
def ltCh : Char := Char.ofNat 60
def gtCh : Char := Char.ofNat 62
def quoteCh : Char := Char.ofNat 34

/-- char::is_ascii_digit. -/
def isAsciiDigit (c : Char) : Bool := c.isDigit

/-- char::is_alphabetic, restricted to ASCII letters (the Rust method
accepts further Unicode letters; every claim input is ASCII). -/
def isAlphabetic (c : Char) : Bool := c.isAlpha

/-- scanner.rs, struct Scanner. -/
structure Scanner where
  src : List Char
  start : Nat
  current : Nat
  line : Nat
deriving DecidableEq, Repr

/-- Scanner::new. -/
def Scanner.new (source : List Char) : Scanner := ⟨source, 0, 0, 1⟩

/-- Scanner::is_at_end. -/
def Scanner.isAtEnd (s : Scanner) : Bool := s.current == s.src.length

/-- Scanner::peek_nth: a negative index is BadPeekOffset, past-the-end
is Ok(None). -/
def Scanner.peekNth (s : Scanner) (offset : Int) : Except SFail (Option Char) :=
  let i := (s.current : Int) + offset
  if i < 0 then .error (.err .BadPeekOffset) else .ok (s.src.get? i.toNat)

/-- Scanner::peek. -/
def Scanner.peek (s : Scanner) : Except SFail (Option Char) := s.peekNth 0

/-- Scanner::peek_next. -/
def Scanner.peekNext (s : Scanner) : Except SFail (Option Char) :=
  if s.isAtEnd then .ok none else s.peekNth 1

/-- Scanner::check. -/
def Scanner.check (s : Scanner) (pred : Char → Bool) : Except SFail Bool :=
  (s.peek).map (fun c => (c.map pred).getD false)

/-- Scanner::check_next. -/
def Scanner.checkNext (s : Scanner) (pred : Char → Bool) : Except SFail Bool :=
  (s.peekNext).map (fun c => (c.map pred).getD false)

/-- Scanner::advance: bump current, then unwrap the char just passed
(obtaining None would be a Rust panic). -/
def Scanner.advanceC (s : Scanner) : Except SFail (Char × Scanner) :=
  let s2 := { s with current := s.current + 1 }
  match s2.peekNth (-1) with
  | .error e => .error e
  | .ok none => .error .panicked
  | .ok (some c) => .ok (c, s2)

/-- Scanner::match_char. -/
def Scanner.matchChar (s : Scanner) (expected : Char) : Except SFail (Bool × Scanner) :=
  if s.isAtEnd then .ok (false, s)
  else
    match s.check (fun c => c != expected) with
    | .error e => .error e
    | .ok true => .ok (false, s)
    | .ok false => .ok (true, { s with current := s.current + 1 })

/-- Scanner::make_token: the literal is source[start..current]. -/
def Scanner.makeToken (s : Scanner) (tt : TokenType) : Token :=
  ⟨tt, (s.src.drop s.start).take (s.current - s.start), s.line⟩

/-- The inner comment-skipping while loop of Scanner::skip_whitespace. -/
def skipComment : Nat → Scanner → Except SFail Scanner
  | 0, _ => .error .fuelOut
  | fuel + 1, s =>
    match s.check (fun c => c != nlCh) with
    | .error e => .error e
    | .ok b =>
      if b && !s.isAtEnd then
        match s.advanceC with
        | .error e => .error e
        | .ok (_, s) => skipComment fuel s
      else .ok s

/-- Scanner::skip_whitespace. -/
def skipWhitespace : Nat → Scanner → Except SFail Scanner
  | 0, _ => .error .fuelOut
  | fuel + 1, s =>
    match s.peek with
    | .error e => .error e
    | .ok c? =>
      match c? with
      | some c =>
        if c == spaceCh || c == crCh || c == tabCh then
          match s.advanceC with
          | .error e => .error e
          | .ok (_, s) => skipWhitespace fuel s
        else if c == nlCh then
          match Scanner.advanceC { s with line := s.line + 1 } with
          | .error e => .error e
          | .ok (_, s) => skipWhitespace fuel s
        else if c == slashCh then
          match s.peekNext with
          | .error e => .error e
          | .ok c2? =>
            if c2? == some slashCh then
              match skipComment fuel s with
              | .error e => .error e
              | .ok s => skipWhitespace fuel s
            else .ok s
        else .ok s
      | none => .ok s

/-- Scanner::check_keyword; && short-circuits, so the slice comparison
only happens when the length test passed. -/
def checkKeyword (s : Scanner) (kwStart : Nat) (rest : List Char) (tt : TokenType) :
    TokenType :=
  if s.current - s.start = kwStart + rest.length
      && decide (((s.src.drop (s.start + kwStart)).take rest.length) = rest) then
    tt
  else .Identifier

/-- Scanner::identifier_type: keyword recognition keyed on the first one
or two chars of the span. -/
def identifierType (s : Scanner) : Except SFail TokenType :=
  match s.src.get? s.start with
  | none => .error (.err .BadPeekOffset)
  | some c =>
    if c == 'a' then .ok (checkKeyword s 1 ['n', 'd'] .And)
    else if c == 'c' then .ok (checkKeyword s 1 ['l', 'a', 's', 's'] .Class)
    else if c == 'e' then .ok (checkKeyword s 1 ['l', 's', 'e'] .Else)
    else if c == 'f' then
      if s.current - s.start > 1 then
        match s.src.get? (s.start + 1) with
        | none => .error (.err .BadPeekOffset)
        | some c2 =>
          if c2 == 'a' then .ok (checkKeyword s 2 ['l', 's', 'e'] .False)
          else if c2 == 'o' then .ok (checkKeyword s 2 ['r'] .For)
          else if c2 == 'u' then .ok (checkKeyword s 2 ['n'] .Fun)
          else .ok .Identifier
      else .ok .Identifier
    else if c == 'i' then .ok (checkKeyword s 1 ['f'] .If)
    else if c == 'n' then .ok (checkKeyword s 1 ['i', 'l'] .Nil)
    else if c == 'o' then .ok (checkKeyword s 1 ['r'] .Or)
    else if c == 'p' then .ok (checkKeyword s 1 ['r', 'i', 'n', 't'] .Print)
    else if c == 'r' then .ok (checkKeyword s 1 ['e', 't', 'u', 'r', 'n'] .Return)
    else if c == 's' then .ok (checkKeyword s 1 ['u', 'p', 'e', 'r'] .Super)
    else if c == 't' then
      if s.current - s.start > 1 then
        match s.src.get? (s.start + 1) with
        | none => .error (.err .BadPeekOffset)
        | some c2 =>
          if c2 == 'h' then .ok (checkKeyword s 2 ['i', 's'] .This)
          else if c2 == 'r' then .ok (checkKeyword s 2 ['u', 'e'] .True)
          else .ok .Identifier
      else .ok .Identifier
    else if c == 'v' then .ok (checkKeyword s 1 ['a', 'r'] .Var)
    else if c == 'w' then .ok (checkKeyword s 1 ['h', 'i', 'l', 'e'] .While)
    else .ok .Identifier

/-- The identifier-continuation while loop of Scanner::identifier. -/
def identLoop : Nat → Scanner → Except SFail Scanner
  | 0, _ => .error .fuelOut
  | fuel + 1, s =>
    match s.check (fun c => isAsciiDigit c || isAlphabetic c) with
    | .error e => .error e
    | .ok true =>
      match s.advanceC with
      | .error e => .error e
      | .ok (_, s) => identLoop fuel s
    | .ok false => .ok s

/-- Scanner::identifier. -/
def identifierTok (fuel : Nat) (s : Scanner) : Except SFail Token × Scanner :=
  match identLoop fuel s with
  | .error e => (.error e, s)
  | .ok s =>
    match identifierType s with
    | .error e => (.error e, s)
    | .ok tt => (.ok (s.makeToken tt), s)

/-- The digit-consuming while loop of Scanner::number. -/
def digitLoop : Nat → Scanner → Except SFail Scanner
  | 0, _ => .error .fuelOut
  | fuel + 1, s =>
    match s.check isAsciiDigit with
    | .error e => .error e
    | .ok true =>
      match s.advanceC with
      | .error e => .error e
      | .ok (_, s) => digitLoop fuel s
    | .ok false => .ok s

/-- Scanner::number: digits, then a decimal point only when a digit
follows it, then more digits. -/
def numberTok (fuel : Nat) (s : Scanner) : Except SFail Token × Scanner :=
  match digitLoop fuel s with
  | .error e => (.error e, s)
  | .ok s =>
    match s.check (fun c => c == dotCh) with
    | .error e => (.error e, s)
    | .ok isDot =>
      match s.checkNext isAsciiDigit with
      | .error e => (.error e, s)
      | .ok digitNext =>
        if isDot && digitNext then
          match s.advanceC with
          | .error e => (.error e, s)
          | .ok (_, s) =>
            match digitLoop fuel s with
            | .error e => (.error e, s)
            | .ok s => (.ok (s.makeToken .Number), s)
        else (.ok (s.makeToken .Number), s)

/-- The body-consuming while loop of Scanner::string, tracking embedded
newlines. -/
def stringLoop : Nat → Scanner → Except SFail Scanner
  | 0, _ => .error .fuelOut
  | fuel + 1, s =>
    match s.check (fun c => c != quoteCh) with
    | .error e => .error e
    | .ok b =>
      if b && !s.isAtEnd then
        match s.check (fun c => c == nlCh) with
        | .error e => .error e
        | .ok isNl =>
          match Scanner.advanceC (if isNl then { s with line := s.line + 1 } else s) with
          | .error e => .error e
          | .ok (_, s) => stringLoop fuel s
      else .ok s

/-- Scanner::string: consume to the closing quote; reaching the end of
input first is UnterminatedString. -/
def stringTok (fuel : Nat) (s : Scanner) : Except SFail Token × Scanner :=
  match stringLoop fuel s with
  | .error e => (.error e, s)
  | .ok s =>
    if s.isAtEnd then (.error (.err .UnterminatedString), s)
    else
      match s.advanceC with
      | .error e => (.error e, s)
      | .ok (_, s) => (.ok (s.makeToken .String), s)

/-- Scanner::scan_token. Errors are paired with the scanner state at the
fault (mutations made before the fault persist, as through the Rust
&mut borrow). -/
def Scanner.scanToken (fuel : Nat) (s0 : Scanner) : Except SFail Token × Scanner :=
  match skipWhitespace fuel s0 with
  | .error e => (.error e, s0)
  | .ok s1 =>
    let s1 := { s1 with start := s1.current }
    if s1.isAtEnd then (.ok (s1.makeToken .EOF), s1)
    else
      match s1.advanceC with
      | .error e => (.error e, s1)
      | .ok (c, s) =>
        if c == lparenCh then (.ok (s.makeToken .LeftParen), s)
        else if c == rparenCh then (.ok (s.makeToken .RightParen), s)
        else if c == lbraceCh then (.ok (s.makeToken .LeftBrace), s)
        else if c == rbraceCh then (.ok (s.makeToken .RightBrace), s)
        else if c == semiCh then (.ok (s.makeToken .Semicolon), s)
        else if c == commaCh then (.ok (s.makeToken .Comma), s)
        else if c == dotCh then (.ok (s.makeToken .Dot), s)
        else if c == minusCh then (.ok (s.makeToken .Minus), s)
        else if c == plusCh then (.ok (s.makeToken .Plus), s)
        else if c == slashCh then (.ok (s.makeToken .Slash), s)
        else if c == starCh then (.ok (s.makeToken .Star), s)
        else if c == bangCh then
          match s.matchChar eqCh with
          | .error e => (.error e, s)
          | .ok (m, s) => (.ok (s.makeToken (if m then .BangEqual else .Bang)), s)
        else if c == eqCh then
          match s.matchChar eqCh with
          | .error e => (.error e, s)
          | .ok (m, s) => (.ok (s.makeToken (if m then .EqualEqual else .Equal)), s)
        else if c == ltCh then
          match s.matchChar eqCh with
          | .error e => (.error e, s)
          | .ok (m, s) => (.ok (s.makeToken (if m then .LessEqual else .Less)), s)
        else if c == gtCh then
          match s.matchChar eqCh with
          | .error e => (.error e, s)
          | .ok (m, s) => (.ok (s.makeToken (if m then .GreaterEqual else .Greater)), s)
        else if c == quoteCh then stringTok fuel s
        else if isAsciiDigit c then numberTok fuel s
        else if isAlphabetic c then identifierTok fuel s
        else (.error (.err .UnexpectedCharacter), s)

/-- The numeric value of a digit span. -/
def digitsVal (cs : List Char) : Nat :=
  cs.foldl (fun a c => a * 10 + (c.toNat - 48)) 0

/-- f64::from_str on a number-token literal (digits, optionally a dot
and more digits), modelled exactly over Rat as
(intDigits * 10^k + fracDigits) / 10^k with k the number of fraction
digits; Value::from_str's ParseFloatError cannot arise for spans of
this shape. -/
def parseNumber (cs : List Char) : Rat :=
  mkRat
    (digitsVal (cs.takeWhile (fun c => c != dotCh)) *
        Nat.pow 10 ((cs.dropWhile (fun c => c != dotCh)).drop 1).length
      + digitsVal ((cs.dropWhile (fun c => c != dotCh)).drop 1))
    (Nat.pow 10 ((cs.dropWhile (fun c => c != dotCh)).drop 1).length)

/-- The prefix parsing routines a rule can point at (compiler.rs keys
them by function pointer; a tag type stands in for the pointer). -/
inductive PrefixKind where
  | grouping | unary | str | number | literal
deriving DecidableEq, Repr

/-- The infix parsing routines a rule can point at. -/
inductive InfixKind where
  | binary
deriving DecidableEq, Repr

/-- compiler.rs, struct Rule. -/
structure Rule where
  prefixFn : Option PrefixKind
  infixFn : Option InfixKind
  prec : Precedence
deriving Repr

/-- compiler.rs, get_rule: the Pratt rule table. Every token type not
listed here is (None, None, Precedence::None) in the source; the
catchall arm collapses those rows. -/
def getRule : TokenType → Rule
  | .LeftParen => ⟨some .grouping, none, .None⟩
  | .Minus => ⟨some .unary, some .binary, .Term⟩
  | .Plus => ⟨none, some .binary, .Term⟩
  | .Slash => ⟨none, some .binary, .Factor⟩
  | .Star => ⟨none, some .binary, .Factor⟩
  | .Bang => ⟨some .unary, none, .None⟩
  | .BangEqual => ⟨none, some .binary, .Equality⟩
  | .EqualEqual => ⟨none, some .binary, .Equality⟩
  | .Greater => ⟨none, some .binary, .Comparison⟩
  | .Less => ⟨none, some .binary, .Comparison⟩
  | .GreaterEqual => ⟨none, some .binary, .Comparison⟩
  | .LessEqual => ⟨none, some .binary, .Comparison⟩
  | .String => ⟨some .str, none, .None⟩
  | .Number => ⟨some .number, none, .None⟩
  | .False => ⟨some .literal, none, .None⟩
  | .Nil => ⟨some .literal, none, .None⟩
  | .True => ⟨some .literal, none, .None⟩
  | _ => ⟨none, none, .None⟩

/-- compiler.rs, struct Parser (the chunk is owned here; diagnostics are
printed in Rust and only the flags are state). -/
structure Parser where
  scanner : Scanner
  chunk : Chunk
  previous : Option Token
  current : Option Token
  had_error : Bool
  panic_mode : Bool
deriving Repr

/-- Parser::new. -/
def Parser.new (source : List Char) (chunk : Chunk) : Parser :=
  ⟨Scanner.new source, chunk, none, none, false, false⟩

/-- Parser::error_at: a suppressed no-op in panic mode, otherwise sets
panic mode and the error flag (the printed diagnostic is dropped). -/
def errorAt (p : Parser) (_tok : Token) (_msg : String) : Parser :=
  if p.panic_mode then p
  else { p with panic_mode := true, had_error := true }

/-- Parser::error_at_current (unwraps current: None is a Rust panic). -/
def errorAtCurrent (p : Parser) (msg : String) : Option Parser :=
  match p.current with
  | none => none
  | some t => some (errorAt p t msg)

/-- Parser::error (unwraps previous: None is a Rust panic). -/
def perror (p : Parser) (msg : String) : Option Parser :=
  match p.previous with
  | none => none
  | some t => some (errorAt p t msg)

/-- The retry loop of Parser::advance: scan errors are reported and
scanning resumes from the scanner state past the fault. -/
def advLoop : Nat → Parser → Option Parser
  | 0, _ => none
  | fuel + 1, p =>
    match Scanner.scanToken fuel p.scanner with
    | (.ok t, s) => some { p with scanner := s, current := some t }
    | (.error (.err _), s) =>
      match errorAtCurrent { p with scanner := s } "scan error" with
      | none => none
      | some p2 => advLoop fuel p2
    | (.error .panicked, _) => none
    | (.error .fuelOut, _) => none

/-- Parser::advance: previous takes current, then scan for a new
current token. -/
def padvance (fuel : Nat) (p : Parser) : Option Parser :=
  advLoop fuel { p with previous := p.current }

/-- Parser::consume. -/
def pconsume (fuel : Nat) (p : Parser) (tt : TokenType) (msg : String) : Option Parser :=
  if (p.current.map (fun t => t.token_type == tt)).getD false then padvance fuel p
  else errorAtCurrent p msg

/-- Parser::emit_byte: writes through the previous token's line
(unwrapping previous: None is a Rust panic). -/
def Parser.emit_byte (p : Parser) (b : Nat) : Option Parser :=
  match p.previous with
  | none => none
  | some t => some { p with chunk := p.chunk.write b t.line }

/-- Parser::emit_bytes. -/
def Parser.emit_bytes (p : Parser) (b1 b2 : Nat) : Option Parser :=
  (p.emit_byte b1).bind (fun p => p.emit_byte b2)

/-- Parser::emit_return. -/
def Parser.emit_return (p : Parser) : Option Parser :=
  p.emit_byte (opToByte .Return)

/-- Parser::make_constant: the pool grows unconditionally; an index
that does not fit u8 reports "Too many constants in one chunk." and
yields index 0. -/
def makeConstant (p : Parser) (v : Value) : Option (Nat × Parser) :=
  let r := p.chunk.add_constant v
  let p := { p with chunk := r.2 }
  if r.1 ≤ 255 then some (r.1, p)
  else
    match perror p "Too many constants in one chunk." with
    | none => none
    | some p => some (0, p)

/-- Parser::emit_constant: always the short form Constant plus one
operand byte. -/
def emitConstant (p : Parser) (v : Value) : Option Parser :=
  (makeConstant p v).bind (fun r => r.2.emit_bytes (opToByte .Constant) r.1)

/-- Parser::string: the literal minus its two quote chars becomes a
string constant. -/
def stringFn (p : Parser) : Option Parser :=
  match p.previous with
  | none => none
  | some t =>
    emitConstant p (.Object (.Str (String.mk ((t.literal.drop 1).dropLast))))

/-- Parser::number. -/
def numberFn (p : Parser) : Option Parser :=
  match p.previous with
  | none => none
  | some t => emitConstant p (.Number (parseNumber t.literal))

/-- Parser::literal. -/
def literalFn (p : Parser) : Option Parser :=
  match p.previous with
  | none => none
  | some t =>
    match t.token_type with
    | .Nil => p.emit_byte (opToByte .Nil)
    | .True => p.emit_byte (opToByte .True)
    | .False => p.emit_byte (opToByte .False)
    | _ => some p

/-- The mutually recursive parsing routines of compiler.rs, folded into
one fuel-indexed dispatcher (expression, parse_precedence with its
infix while-loop, grouping, unary, binary). -/
inductive PAct where
  | expression
  | parsePrec (prec : Precedence)
  | infixLoop (prec : Precedence)
  | grouping
  | unaryAct
  | binaryAct
deriving Repr

/-- One parsing routine, by tag: a faithful rendering of
Parser::expression, Parser::parse_precedence (whose while-loop is the
infixLoop tag), Parser::grouping, Parser::unary and Parser::binary.
none models a Rust panic or fuel exhaustion. -/
def pexec : Nat → PAct → Parser → Option Parser
  | 0, _, _ => none
  | fuel + 1, act, p =>
    match act with
    | .expression => pexec fuel (.parsePrec .Assignment) p
    | .parsePrec prec =>
      match padvance fuel p with
      | none => none
      | some p =>
        match p.previous with
        | none => none
        | some tok =>
          match (getRule tok.token_type).prefixFn with
          | none => perror p "Expect expression."
          | some pf =>
            let r :=
              match pf with
              | .grouping => pexec fuel .grouping p
              | .unary => pexec fuel .unaryAct p
              | .str => stringFn p
              | .number => numberFn p
              | .literal => literalFn p
            match r with
            | none => none
            | some p => pexec fuel (.infixLoop prec) p
    | .infixLoop prec =>
      match p.current with
      | none => none
      | some cur =>
        if Precedence.ple prec (getRule cur.token_type).prec then
          match padvance fuel p with
          | none => none
          | some p =>
            match p.previous with
            | none => none
            | some tok =>
              match (getRule tok.token_type).infixFn with
              | some .binary =>
                match pexec fuel .binaryAct p with
                | none => none
                | some p => pexec fuel (.infixLoop prec) p
              | none => pexec fuel (.infixLoop prec) p
        else some p
    | .grouping =>
      match pexec fuel .expression p with
      | none => none
      | some p => pconsume fuel p .RightParen "Expect closing paren after expression."
    | .unaryAct =>
      match p.previous with
      | none => none
      | some tok =>
        match pexec fuel (.parsePrec .Unary) p with
        | none => none
        | some p =>
          match tok.token_type with
          | .Bang => p.emit_byte (opToByte .Not)
          | .Minus => p.emit_byte (opToByte .Negate)
          | _ => some p
    | .binaryAct =>
      match p.previous with
      | none => none
      | some tok =>
        match pexec fuel (.parsePrec ((getRule tok.token_type).prec.add 1)) p with
        | none => none
        | some p =>
          match tok.token_type with
          | .BangEqual => p.emit_bytes (opToByte .Equal) (opToByte .Not)
          | .EqualEqual => p.emit_byte (opToByte .Equal)
          | .Greater => p.emit_byte (opToByte .Greater)
          | .GreaterEqual => p.emit_bytes (opToByte .Less) (opToByte .Not)
          | .Less => p.emit_byte (opToByte .Less)
          | .LessEqual => p.emit_bytes (opToByte .Greater) (opToByte .Not)
          | .Plus => p.emit_byte (opToByte .Add)
          | .Minus => p.emit_byte (opToByte .Subtract)
          | .Star => p.emit_byte (opToByte .Multiply)
          | .Slash => p.emit_byte (opToByte .Divide)
          | _ => some p

/-- compiler.rs, compile: advance, one expression, consume EOF, emit
Return — and return Ok(()) unconditionally (had_error is never
consulted). The final Parser carries the built chunk and the flags. -/
def compile (fuel : Nat) (source : List Char) (ch : Chunk) :
    Option (Except ScanError Unit × Parser) :=
  match padvance fuel (Parser.new source ch) with
  | none => none
  | some p =>
    match pexec fuel .expression p with
    | none => none
    | some p =>
      match pconsume fuel p .EOF "Expect end of expression." with
      | none => none
      | some p =>
        match p.emit_return with
        | none => none
        | some p => some (.ok (), p)

/-- VM::interpret: install a fresh chunk, compile into it, bail out
with CompileError only when compile reports Err (which it never does),
else reset ip and run. -/
def VM.interpret (fuel : Nat) (v : VM) (source : List Char) :
    Option (Except InterpretError Unit × VM) :=
  match compile fuel source Chunk.empty with
  | none => none
  | some (r, p) =>
    match r with
    | .error _ => some (.error .CompileError, { v with chunk := some p.chunk })
    | .ok _ => runLoop fuel { v with chunk := some p.chunk, ip := 0 }

/-- Fixture: a chunk holding True; Return. -/
def chunkTrueRet : Chunk :=
  (Chunk.empty.write (opToByte .True) 1).write (opToByte .Return) 1

/-- Fixture: a chunk holding Not; Return. -/
def chunkNotRet : Chunk :=
  (Chunk.empty.write (opToByte .Not) 1).write (opToByte .Return) 1

/-- Fixture: a chunk holding Nil; Nil; Negate; True; Return — the Negate
faults on the second Nil, with one more value below it on the stack and
one more instruction behind it in the code. -/
def chunkNegFault : Chunk :=
  ((((Chunk.empty.write (opToByte .Nil) 1).write (opToByte .Nil) 1).write
      (opToByte .Negate) 1).write (opToByte .True) 1).write (opToByte .Return) 1

/-- Fixture: a chunk holding ConstantLong with operand bytes 1, 0, 0,
then Return; its pool has 17 entries with a marker at index 16 (the
big-endian reading 65536 is far out of range). -/
def chunkLongIdx : Chunk :=
  ⟨[1, 1, 0, 0, 11], List.replicate 16 Value.Nil ++ [Value.Number 42], [(1, 5)]⟩

/-- Fixture: a previous token for emit paths. -/
def tokenNum1 : Token := ⟨.Number, ['1'], 1⟩

/-- Fixture: a parser whose chunk pool already holds 256 constants, so
the next constant gets index 256 — the first index needing the long
form. -/
def pBig256 : Parser :=
  ⟨Scanner.new [], ⟨[], List.replicate 256 Value.Nil, []⟩, some tokenNum1, none, false, false⟩

/-! Helper lemmas about Chunk::write and the line table. -/

theorem expandLines_concat (L : List (Nat × Nat)) (r : Nat × Nat) :
    expandLines (L ++ [r]) = expandLines L ++ List.replicate r.2 r.1 := by
  simp [expandLines]

theorem write_code (c : Chunk) (b l : Nat) :
    (c.write b l).code = c.code ++ [b] := by
  unfold Chunk.write
  cases h : c.lines.getLast? with
  | none => simp
  | some r =>
    obtain ⟨tl, cnt⟩ := r
    by_cases hl : l = tl <;> simp [hl]

theorem write_constants (c : Chunk) (b l : Nat) :
    (c.write b l).constants = c.constants := by
  unfold Chunk.write
  cases h : c.lines.getLast? with
  | none => simp
  | some r =>
    obtain ⟨tl, cnt⟩ := r
    by_cases hl : l = tl <;> simp [hl]

theorem write_lines_nil (c : Chunk) (b l : Nat) (hc : c.lines = []) :
    (c.write b l).lines = [(l, 1)] := by
  unfold Chunk.write
  rw [hc]
  rfl

theorem write_lines_eqtop (c : Chunk) (b l cnt : Nat) (L : List (Nat × Nat))
    (hc : c.lines = L ++ [(l, cnt)]) :
    (c.write b l).lines = L ++ [(l, cnt + 1)] := by
  unfold Chunk.write
  rw [hc, List.getLast?_concat, List.dropLast_concat]
  simp

theorem write_lines_netop (c : Chunk) (b l tl cnt : Nat) (L : List (Nat × Nat))
    (hc : c.lines = L ++ [(tl, cnt)]) (hne : l ≠ tl) :
    (c.write b l).lines = L ++ [(tl, cnt), (l, 1)] := by
  unfold Chunk.write
  rw [hc, List.getLast?_concat, List.dropLast_concat]
  simp [hne]

theorem write_lines_expand (c : Chunk) (b l : Nat) :
    expandLines (c.write b l).lines = expandLines c.lines ++ [l] := by
  rcases List.eq_nil_or_concat c.lines with h | ⟨L, r, h⟩
  · rw [write_lines_nil c b l h, h]
    simp [expandLines]
  · obtain ⟨tl, cnt⟩ := r
    rw [List.concat_eq_append] at h
    by_cases hl : l = tl
    · subst hl
      rw [write_lines_eqtop c b l cnt L h, h,
          expandLines_concat, expandLines_concat]
      simp [List.replicate_succ' cnt l, List.append_assoc]
    · rw [write_lines_netop c b l tl cnt L h hl, h]
      rw [show L ++ [(tl, cnt), (l, 1)] = (L ++ [(tl, cnt)]) ++ [(l, 1)] by
            simp [List.append_assoc]]
      rw [expandLines_concat, expandLines_concat]
      simp

theorem write_goodLines (c : Chunk) (b l : Nat) (hg : goodLines c.lines) :
    goodLines (c.write b l).lines := by
  obtain ⟨hchain, hpos⟩ := hg
  rcases List.eq_nil_or_concat c.lines with h | ⟨L, r, h⟩
  · rw [write_lines_nil c b l h]
    exact ⟨by simp, by simp⟩
  · obtain ⟨tl, cnt⟩ := r
    rw [List.concat_eq_append] at h
    rw [h] at hchain hpos
    by_cases hl : l = tl
    · subst hl
      rw [write_lines_eqtop c b l cnt L h]
      rw [List.chain'_append] at hchain
      constructor
      · rw [List.chain'_append]
        refine ⟨hchain.1, by simp, ?_⟩
        intro x hx y hy
        simp at hy
        subst hy
        exact hchain.2.2 x hx (l, cnt) (by simp)
      · intro r hr
        simp at hr
        rcases hr with hr | hr
        · exact hpos r (by simp [hr])
        · subst hr
          simp
    · rw [write_lines_netop c b l tl cnt L h hl]
      constructor
      · rw [show L ++ [(tl, cnt), (l, 1)] = (L ++ [(tl, cnt)]) ++ [(l, 1)] by
              simp [List.append_assoc]]
        rw [List.chain'_append]
        refine ⟨hchain, by simp, ?_⟩
        intro x hx y hy
        simp at hy
        rw [List.getLast?_concat] at hx
        simp at hx
        subst hx
        subst hy
        simp only [ne_eq]
        exact fun hc => hl hc.symm
      · intro r hr
        simp at hr
        rcases hr with hr | hr | hr
        · exact hpos r (by simp [hr])
        · subst hr
          exact hpos (tl, cnt) (by simp)
        · subst hr
          simp

theorem writeAll_expand (ws : List (Nat × Nat)) :
    ∀ c : Chunk, expandLines (writeAll c ws).lines
      = expandLines c.lines ++ ws.map Prod.snd := by
  induction ws with
  | nil => intro c; simp [writeAll]
  | cons w ws ih =>
    intro c
    rw [show writeAll c (w :: ws) = writeAll (c.write w.1 w.2) ws from rfl,
        ih, write_lines_expand]
    simp

theorem writeAll_good (ws : List (Nat × Nat)) :
    ∀ c : Chunk, goodLines c.lines → goodLines (writeAll c ws).lines := by
  induction ws with
  | nil => intro c hg; simpa [writeAll] using hg
  | cons w ws ih =>
    intro c hg
    exact ih (c.write w.1 w.2) (write_goodLines c w.1 w.2 hg)

theorem toI32_ofSmall (n : Nat) (h : n < 2147483648) : toI32 n = (n : Int) := by
  unfold toI32
  rw [Nat.mod_eq_of_lt (by omega)]
  simp [h]

theorem wrapI32_of_range (x : Int) (h1 : -2147483648 ≤ x) (h2 : x < 2147483648) :
    wrapI32 x = x := by
  unfold wrapI32
  rw [Int.emod_eq_of_lt (by omega) (by omega)]
  omega

theorem getLineGo_eq (L : List (Nat × Nat)) :
    (∀ r ∈ L, 0 < r.2) → (expandLines L).length < 2147483648 →
    ∀ i : Nat, i < 2147483648 → getLineGo (i : Int) L = (expandLines L)[i]? := by
  induction L with
  | nil =>
    intro _ _ i _
    simp [getLineGo, expandLines]
  | cons r rest ih =>
    obtain ⟨l, cnt⟩ := r
    intro hpos hlen i hi
    have hcnt : 0 < cnt := hpos (l, cnt) (by simp)
    have hexp : expandLines ((l, cnt) :: rest)
        = List.replicate cnt l ++ expandLines rest := by
      simp [expandLines]
    rw [hexp] at hlen
    simp at hlen
    unfold getLineGo
    rw [toI32_ofSmall cnt (by omega)]
    by_cases hic : i < cnt
    · have hw : wrapI32 ((i : Int) - (cnt : Int)) = (i : Int) - (cnt : Int) :=
        wrapI32_of_range _ (by omega) (by omega)
      rw [hw, if_pos (by omega)]
      rw [hexp, List.getElem?_append_left (by simpa using hic)]
      simp [List.getElem?_replicate, hic]
    · have hge : cnt ≤ i := by omega
      have heq : (i : Int) - (cnt : Int) = ((i - cnt : Nat) : Int) := by omega
      have hw : wrapI32 ((i : Int) - (cnt : Int)) = ((i - cnt : Nat) : Int) := by
        rw [heq]
        exact wrapI32_of_range _ (by omega) (by omega)
      rw [hw, if_neg (by omega)]
      rw [hexp, List.getElem?_append_right (by simpa using hge)]
      rw [ih (fun r hr => hpos r (by simp [hr])) (by omega) (i - cnt) (by omega)]
      simp

/-- C4 (amended): for any sequence of fewer than 2^31 write(op, line)
calls on a fresh Chunk, get_line returns, for every offset below 2^31,
exactly the line of the write that produced that offset, and None for
offsets at or beyond the number of writes (both captured by indexing
the list of written lines); and the line table never holds two adjacent
records with equal lines. The 2^31 bound is forced by the `idx as i32`
cast inside get_line, which wraps for larger offsets. -/
theorem c4_line_table_amended (ws : List (Nat × Nat))
    (h : ws.length < 2147483648) :
    (∀ i, i < 2147483648 →
      (writeAll Chunk.empty ws).get_line i = (ws.map Prod.snd)[i]?)
    ∧ List.Chain' (fun a b => a.1 ≠ b.1) (writeAll Chunk.empty ws).lines := by
  have hgood : goodLines (writeAll Chunk.empty ws).lines :=
    writeAll_good ws Chunk.empty ⟨by simp [Chunk.empty], by simp [Chunk.empty]⟩
  have hexp : expandLines (writeAll Chunk.empty ws).lines = ws.map Prod.snd := by
    rw [writeAll_expand ws Chunk.empty]
    simp [Chunk.empty, expandLines]
  refine ⟨fun i hi => ?_, hgood.1⟩
  unfold Chunk.get_line
  rw [toI32_ofSmall i hi,
      getLineGo_eq _ hgood.2 (by rw [hexp]; simpa using h) i hi, hexp]

/-- C4 witness: a concrete two-write sequence, looked up through the
amended theorem at offsets 0, 1 and 2. -/
theorem c4_line_table_witness :
    (writeAll Chunk.empty [(11, 7), (11, 9)]).get_line 0 = some 7
    ∧ (writeAll Chunk.empty [(11, 7), (11, 9)]).get_line 1 = some 9
    ∧ (writeAll Chunk.empty [(11, 7), (11, 9)]).get_line 2 = none := by
  have h := (c4_line_table_amended [(11, 7), (11, 9)] (by norm_num)).1
  refine ⟨?_, ?_, ?_⟩
  · have h0 := h 0 (by norm_num)
    simpa using h0
  · have h1 := h 1 (by norm_num)
    simpa using h1
  · have h2 := h 2 (by norm_num)
    simpa using h2

/-- C4 counterexample: after a single write (so N = 1), the claim says
get_line(offset) is None for every offset at or above 1; but at offset
2^31 + 10 the `as i32` cast makes the offset negative and get_line
answers Some 7. -/
theorem c4_line_table_counterexample :
    (Chunk.empty.write 11 7).get_line 2147483658 = some 7
    ∧ (Chunk.empty.write 11 7).code.length = 1
    ∧ 1 ≤ 2147483658 := by
  refine ⟨by decide, by decide, by norm_num⟩

/-! Helpers for the Precedence usize conversions. -/

theorem tryFromUsize_le (n : Nat) (h : n ≤ 10) :
    ∃ q, Precedence.tryFromUsize n = .ok q ∧ q.toUsize = n := by
  interval_cases n <;> exact ⟨_, rfl, rfl⟩

theorem tryFromUsize_gt (n : Nat) (h : 10 < n) :
    Precedence.tryFromUsize n = .error () := by
  match n, h with
  | n + 11, _ => rfl

/-- C10 (amended): adding a usize u to a Precedence level p never
panics in release semantics and, whenever the true sum ord(p) + u does
not overflow usize, yields the level with ordinal ord(p) + u when the
sum is at most 10 and p itself otherwise — so Primary + 1 = Primary and
the `precedence + 1` in binary infix productions (u = 1) is always
defined. For sums of at least 2^64 the usize addition wraps (or panics
in a debug build) and can land on a different level, so the unqualified
claim fails. -/
theorem c10_precedence_add_amended (p : Precedence) (u : Nat)
    (h : p.toUsize + u < 18446744073709551616) :
    (p.toUsize + u ≤ 10 → (p.add u).toUsize = p.toUsize + u)
    ∧ (10 < p.toUsize + u → p.add u = p) := by
  constructor
  · intro h10
    unfold Precedence.add
    rw [Nat.mod_eq_of_lt h]
    obtain ⟨q, hq, hqu⟩ := tryFromUsize_le _ h10
    rw [hq]
    exact hqu
  · intro h10
    unfold Precedence.add
    rw [Nat.mod_eq_of_lt h, tryFromUsize_gt _ h10]

/-- C10 witness: the amended theorem applied at Primary and u = 1:
Primary + 1 = Primary. -/
theorem c10_precedence_add_witness :
    Precedence.add .Primary 1 = .Primary :=
  (c10_precedence_add_amended .Primary 1 (by decide)).2 (by decide)

/-- C10 counterexample: at u = 2^64 - 1 the sum ord(Term) + u exceeds
10, yet the wrapped usize addition yields Comparison, not Term. -/
theorem c10_precedence_add_counterexample :
    Precedence.add .Term 18446744073709551615 = .Comparison
    ∧ 10 < Precedence.toUsize .Term + 18446744073709551615
    ∧ Precedence.Comparison ≠ Precedence.Term := by
  refine ⟨by decide, by norm_num, by decide⟩

/-- C2 (amended): executing Not (then Return) with value x on top pops
x and pushes !b when x is Bool b, pushes true when x is Nil, and for
every other value — Numbers (including 0) and strings included — halts
at once with ValueError "Expected falsable type", the faulting run
leaving the rest of the stack in place. There is no truthiness rule in
the Not arm. -/
theorem c2_not_amended (x : Value) (rest : List Value) :
    VM.instruct 3 ⟨none, 0, x :: rest⟩ chunkNotRet =
      some (match x with
        | .Bool b => (.ok (), ⟨some chunkNotRet, 2, .Bool (!b) :: rest⟩)
        | .Nil => (.ok (), ⟨some chunkNotRet, 2, .Bool true :: rest⟩)
        | _ => (.error (.ValueError "Expected falsable type"),
                ⟨some chunkNotRet, 1, rest⟩)) := by
  cases x <;> rfl

/-- C2 counterexample: with Number 0 on top, the claim says Not pushes
Bool true-complement (false) and never fails; the code instead halts
with ValueError "Expected falsable type" and pushes nothing. -/
theorem c2_not_counterexample :
    VM.instruct 3 ⟨none, 0, [Value.Number 0]⟩ chunkNotRet =
      some (.error (.ValueError "Expected falsable type"),
        ⟨some chunkNotRet, 1, []⟩) := by
  rfl

/-- C5 (amended): when the execute loop hits a type error (Negate on a
non-Number here), it halts immediately — the True instruction behind
the fault is never executed — returning Err(ValueError ...); but the
stack is NOT cleared (the remaining operand Nil stays, atop whatever
the VM already held) and no source line is computed or reported
(VM::run never calls runtime_error). -/
theorem c5_type_error_amended (v : VM) :
    VM.instruct 9 v chunkNegFault =
      some (.error (.ValueError "Can only negate number values"),
        ⟨some chunkNegFault, 3, Value.Nil :: v.stack⟩) := by
  obtain ⟨ch, ip, st⟩ := v
  rfl

/-- C5 counterexample: from an empty stack, the faulting run leaves
[Nil] on the stack, so the claim "the operand stack is empty after the
run halts" is false; the halt also happens with ip = 3, before the
True at offset 3 executes. -/
theorem c5_type_error_counterexample :
    VM.instruct 9 VM.empty chunkNegFault =
      some (.error (.ValueError "Can only negate number values"),
        ⟨some chunkNegFault, 3, [Value.Nil]⟩)
    ∧ [Value.Nil] ≠ ([] : List Value) := by
  refine ⟨rfl, by decide⟩

/-- C6: the ConstantLong arm folds its three operand bytes with
idx = (idx << 2) + b, so the resolved pool index is
16 * b0 + 4 * b1 + b2 — not the base-256 big-endian
65536 * b0 + 256 * b1 + b2 the claim states. Witnessed through a full
run: whatever the pool holds at 16 * b0 + 4 * b1 + b2 is what gets
pushed. -/
theorem c6_constant_long_decode (b0 b1 b2 : Nat) :
    constLongIdx b0 b1 b2 = 16 * b0 + 4 * b1 + b2
    ∧ VM.instruct 9 VM.empty chunkLongIdx =
        some (.ok (), ⟨some chunkLongIdx, 5, [Value.Number 42]⟩)
    ∧ constLongIdx 1 0 0 = 16
    ∧ 65536 * 1 + 256 * 0 + 0 = 65536
    ∧ (16 : Nat) ≠ 65536 := by
  refine ⟨?_, rfl, by decide, by norm_num, by decide⟩
  simp [constLongIdx, Nat.shiftLeft_eq]
  ring

/-- C9 (amended): instruct (and interpret, which shares the path)
resets the instruction pointer to 0 before the execute loop, but never
clears the operand stack: whatever the VM's stack held before the run
stays beneath the values the new run pushes. -/
theorem c9_reset_amended (v : VM) :
    VM.instruct 3 v chunkTrueRet =
      some (.ok (), ⟨some chunkTrueRet, 2, .Bool true :: v.stack⟩) := by
  obtain ⟨ch, ip, st⟩ := v
  rfl

/-- C9 counterexample: running the same chunk twice on one VM leaves
two copies of Bool true on the stack — the first run's operand survived
into the second run, so the stack is not cleared at the start of each
run. -/
theorem c9_stack_persists_counterexample :
    (VM.instruct 3 VM.empty chunkTrueRet).bind
        (fun r => VM.instruct 3 r.2 chunkTrueRet) =
      some (.ok (), ⟨some chunkTrueRet, 2, [.Bool true, .Bool true]⟩)
    ∧ [Value.Bool true, Value.Bool true] ≠ [Value.Bool true] := by
  refine ⟨rfl, by decide⟩

/-- C1: compiling the malformed expression "+" records a compile error
(had_error = true) — yet compile still returns Ok, so VM::interpret
does not return CompileError: it runs the partially emitted chunk (just
the trailing Return) to completion, ending with Ok and ip = 1. The
claim (and the spec) say a recorded error makes compile fail and makes
interpret halt with CompileError before executing. -/
theorem c1_compile_ignores_had_error :
    (compile 99 ("+".toList) Chunk.empty).map
        (fun r => (r.1.isOk, r.2.had_error, r.2.chunk.code)) =
      some (true, true, [opToByte .Return])
    ∧ (VM.interpret 99 VM.empty ("+".toList)).map
        (fun r => (r.1.isOk, r.2.ip)) = some (true, 1) := by
  exact ⟨rfl, rfl⟩

/-- C3: compiling "1 + 2 * 3" emits the constant-loads for 1, 2 and 3,
then Multiply, then Add (and the trailing Return), with no error; and
compiling "2 - 3 - 4" emits the loads of 2 and 3, Subtract, the load of
4, Subtract — i.e. (2 - 3) - 4, left-associative. -/
theorem c3_precedence_confirmed :
    (compile 99 ("1 + 2 * 3".toList) Chunk.empty).map
        (fun r => (r.2.chunk.code, r.2.chunk.constants, r.2.had_error)) =
      some ([opToByte .Constant, 0, opToByte .Constant, 1, opToByte .Constant, 2,
             opToByte .Multiply, opToByte .Add, opToByte .Return],
            [Value.Number 1, Value.Number 2, Value.Number 3], false)
    ∧ (compile 99 ("2 - 3 - 4".toList) Chunk.empty).map
        (fun r => (r.2.chunk.code, r.2.chunk.constants, r.2.had_error)) =
      some ([opToByte .Constant, 0, opToByte .Constant, 1, opToByte .Subtract,
             opToByte .Constant, 2, opToByte .Subtract, opToByte .Return],
            [Value.Number 2, Value.Number 3, Value.Number 4], false) := by
  exact ⟨by decide, by decide⟩

/-- C8: for each successfully parsed binary operator, the compiler
emits exactly the claimed desugaring after the two operands:
!= gives Equal Not, == gives Equal, > gives Greater, >= gives Less Not,
< gives Less, <= gives Greater Not, and + - * / give
Add/Subtract/Multiply/Divide directly (each chunk ends with the
trailing Return of compile). -/
theorem c8_desugaring_confirmed :
    (compile 99 ("1 != 2".toList) Chunk.empty).map (fun r => r.2.chunk.code) =
      some [opToByte .Constant, 0, opToByte .Constant, 1,
            opToByte .Equal, opToByte .Not, opToByte .Return]
    ∧ (compile 99 ("1 == 2".toList) Chunk.empty).map (fun r => r.2.chunk.code) =
      some [opToByte .Constant, 0, opToByte .Constant, 1,
            opToByte .Equal, opToByte .Return]
    ∧ (compile 99 ("1 > 2".toList) Chunk.empty).map (fun r => r.2.chunk.code) =
      some [opToByte .Constant, 0, opToByte .Constant, 1,
            opToByte .Greater, opToByte .Return]
    ∧ (compile 99 ("1 >= 2".toList) Chunk.empty).map (fun r => r.2.chunk.code) =
      some [opToByte .Constant, 0, opToByte .Constant, 1,
            opToByte .Less, opToByte .Not, opToByte .Return]
    ∧ (compile 99 ("1 < 2".toList) Chunk.empty).map (fun r => r.2.chunk.code) =
      some [opToByte .Constant, 0, opToByte .Constant, 1,
            opToByte .Less, opToByte .Return]
    ∧ (compile 99 ("1 <= 2".toList) Chunk.empty).map (fun r => r.2.chunk.code) =
      some [opToByte .Constant, 0, opToByte .Constant, 1,
            opToByte .Greater, opToByte .Not, opToByte .Return]
    ∧ (compile 99 ("1 + 2".toList) Chunk.empty).map (fun r => r.2.chunk.code) =
      some [opToByte .Constant, 0, opToByte .Constant, 1,
            opToByte .Add, opToByte .Return]
    ∧ (compile 99 ("1 - 2".toList) Chunk.empty).map (fun r => r.2.chunk.code) =
      some [opToByte .Constant, 0, opToByte .Constant, 1,
            opToByte .Subtract, opToByte .Return]
    ∧ (compile 99 ("1 * 2".toList) Chunk.empty).map (fun r => r.2.chunk.code) =
      some [opToByte .Constant, 0, opToByte .Constant, 1,
            opToByte .Multiply, opToByte .Return]
    ∧ (compile 99 ("1 / 2".toList) Chunk.empty).map (fun r => r.2.chunk.code) =
      some [opToByte .Constant, 0, opToByte .Constant, 1,
            opToByte .Divide, opToByte .Return] := by
  refine ⟨?_, ?_, ?_, ?_, ?_, ?_, ?_, ?_, ?_, ?_⟩ <;> decide

/-- C7 (amended): emit_constant always emits the short form — the
Constant opcode plus one operand byte. While the new pool index fits a
single byte the operand is that index and no error is recorded; once it
does not (index 256 and up), the compiler records the error "Too many
constants in one chunk." (panic-mode permitting) and emits the short
form with operand byte 0. It never switches to ConstantLong: no newly
emitted byte is the ConstantLong opcode. -/
theorem c7_emit_constant_amended (p : Parser) (tok : Token) (v : Value)
    (h : p.previous = some tok) :
    ∃ q, emitConstant p v = some q ∧
      q.chunk.constants = p.chunk.constants ++ [v] ∧
      (p.chunk.constants.length ≤ 255 →
        q.chunk.code = p.chunk.code ++ [opToByte .Constant, p.chunk.constants.length]
          ∧ q.had_error = p.had_error) ∧
      (255 < p.chunk.constants.length →
        q.chunk.code = p.chunk.code ++ [opToByte .Constant, 0]
          ∧ (p.panic_mode = false → q.had_error = true)
          ∧ ∀ b ∈ q.chunk.code.drop p.chunk.code.length,
              b ≠ opToByte OpCode.ConstantLong) := by
  by_cases h255 : p.chunk.constants.length ≤ 255
  · refine ⟨{ p with chunk :=
        (({ p with chunk := { p.chunk with
              constants := p.chunk.constants ++ [v] } }).chunk.write
            (opToByte .Constant) tok.line).write p.chunk.constants.length tok.line },
      ?_, ?_, ?_, ?_⟩
    · simp [emitConstant, makeConstant, Chunk.add_constant, h255,
        Parser.emit_bytes, Parser.emit_byte, h]
    · simp [write_constants]
    · intro _
      refine ⟨?_, rfl⟩
      rw [write_code, write_code]
      simp
    · intro hgt
      omega
  · by_cases hpm : p.panic_mode
    · refine ⟨{ p with chunk :=
          (({ p with chunk := { p.chunk with
                constants := p.chunk.constants ++ [v] } }).chunk.write
              (opToByte .Constant) tok.line).write 0 tok.line },
        ?_, ?_, ?_, ?_⟩
      · simp [emitConstant, makeConstant, Chunk.add_constant, h255, perror, h,
          errorAt, hpm, Parser.emit_bytes, Parser.emit_byte]
      · simp [write_constants]
      · intro hle
        omega
      · intro _
        refine ⟨?_, ?_, ?_⟩
        · rw [write_code, write_code]
          simp
        · intro hf
          rw [hf] at hpm
          exact absurd hpm (by simp)
        · intro b hb
          rw [write_code, write_code] at hb
          simp only [List.append_assoc] at hb
          rw [List.drop_left] at hb
          simp at hb
          rcases hb with hb | hb <;> simp [hb, opToByte]
    · refine ⟨{ p with
          panic_mode := true, had_error := true,
          chunk := (({ p with chunk := { p.chunk with
                constants := p.chunk.constants ++ [v] } }).chunk.write
              (opToByte .Constant) tok.line).write 0 tok.line },
        ?_, ?_, ?_, ?_⟩
      · simp [emitConstant, makeConstant, Chunk.add_constant, h255, perror, h,
          errorAt, hpm, Parser.emit_bytes, Parser.emit_byte]
      · simp [write_constants]
      · intro hle
        omega
      · intro _
        refine ⟨?_, fun _ => rfl, ?_⟩
        · rw [write_code, write_code]
          simp
        · intro b hb
          rw [write_code, write_code] at hb
          simp only [List.append_assoc] at hb
          rw [List.drop_left] at hb
          simp at hb
          rcases hb with hb | hb <;> simp [hb, opToByte]

/-- C7 witness: the amended theorem applied at the 256-constant parser
fixture and the literal 1. -/
theorem c7_emit_constant_witness :
    ∃ q, emitConstant pBig256 (Value.Number 1) = some q ∧
      q.chunk.constants = pBig256.chunk.constants ++ [Value.Number 1] ∧
      (pBig256.chunk.constants.length ≤ 255 →
        q.chunk.code = pBig256.chunk.code
            ++ [opToByte .Constant, pBig256.chunk.constants.length]
          ∧ q.had_error = pBig256.had_error) ∧
      (255 < pBig256.chunk.constants.length →
        q.chunk.code = pBig256.chunk.code ++ [opToByte .Constant, 0]
          ∧ (pBig256.panic_mode = false → q.had_error = true)
          ∧ ∀ b ∈ q.chunk.code.drop pBig256.chunk.code.length,
              b ≠ opToByte OpCode.ConstantLong) :=
  c7_emit_constant_amended pBig256 tokenNum1 (Value.Number 1) rfl

set_option maxRecDepth 8192 in
/-- C7 counterexample: at pool index 256 — comfortably inside the long
form's 2^24 capacity — the claim says the compiler switches to
ConstantLong with no error; instead had_error is set and the short form
Constant with operand byte 0 is emitted. -/
theorem c7_short_form_counterexample :
    (emitConstant pBig256 (Value.Number 1)).map
        (fun q => (q.had_error, q.chunk.code)) =
      some (true, [opToByte .Constant, 0])
    ∧ 256 < 16777216 := by
  refine ⟨by decide, by norm_num⟩

end Roxl
